import Mathlib

/-!
Verification development for snapd's `cmd/cmdutil/runinhibit/inhibit.go`.

The package stores a per-snap "run inhibition" hint in a lock file
`<InhibitDir>/<snapName>.lock` and offers three operations:

* `LockWithHint` — reject an empty hint, `MkdirAll` the inhibit directory,
  open-or-create the hint file, take an exclusive lock, truncate, write the hint;
* `Unlock` — open the hint file (a not-exist failure is swallowed as success),
  take an exclusive lock, truncate to zero length;
* `IsLocked` — open the hint file (not-exist means "not inhibited"), take a
  shared lock, stat the size, read that many bytes and return them as the hint.

The embedding models the filesystem as an association list from paths to file
contents plus a flag for the existence of the inhibit directory.  Each syscall
that can fail for environmental reasons (permissions, disk) takes its outcome
from an explicit fault-injection environment; the deterministic part of each
syscall (not-exist when the directory is missing, creation of a missing file
by the open-or-create primitive) is computed from the state.  The fault fields
carry plain message strings and are always interpreted as I/O errors, so an
injected fault is never confused with the deterministic not-exist condition.
-/

namespace Runinhibit

/-- Errors visible to callers of the package: the deterministic not-exist
condition recognised by `os.IsNotExist`, the `InvalidArgument`-class error
produced by `fmt.Errorf("hint cannot be empty")`, and environmental I/O
failures carrying a message. -/
inductive GoError where
  | notExist
  | invalidArgument (msg : String)
  | ioError (msg : String)
deriving DecidableEq, Repr

/-- The modelled filesystem: whether the inhibit directory exists, and the
hint files, as an association list from full path to contents. -/
structure FsState where
  dirExists : Bool
  files : List (String × String)
deriving DecidableEq, Repr

/-- Go: `const defaultInhibitDir = "/var/lib/snapd/inhibit"`. -/
def defaultInhibitDir : String := "/var/lib/snapd/inhibit"

/-- Go: `var InhibitDir = defaultInhibitDir` (root-relocation callback excluded
from the core, so the default value is used throughout). -/
def InhibitDir : String := defaultInhibitDir

/-- Hints are plain strings; `Hint` is a string type in the source. -/
abbrev Hint := String

/-- Go: `HintNotInhibited Hint = ""`. -/
def HintNotInhibited : Hint := ""

/-- Go: `HintInhibitedForRefresh Hint = "refresh"`. -/
def HintInhibitedForRefresh : Hint := "refresh"

/-- Go: `filepath.Join(InhibitDir, snapName+".lock")`. -/
def hintFilePath (snapName : String) : String :=
  InhibitDir ++ "/" ++ snapName ++ ".lock"

/-- Look a path up in the modelled filesystem. -/
def lookupFile : List (String × String) → String → Option String
  | [], _ => none
  | (q, c) :: rest, p => if q = p then some c else lookupFile rest p

/-- Create or overwrite a path in the modelled filesystem. -/
def setFile : List (String × String) → String → String → List (String × String)
  | [], p, c => [(p, c)]
  | (q, d) :: rest, p, c =>
      if q = p then (p, c) :: rest else (q, d) :: setFile rest p c

/-- Modelled from the spec: the file-lock primitive `osutil.NewFileLockWithMode`
is not under src/; spec section 6 describes it as exposing, per path,
"open-or-create returning a lock handle".  Opening fails with a not-exist error
when neither the file nor the inhibit directory exists; a missing file whose
directory exists is created empty; `inj` injects an environmental open failure
(permissions and the like), always an I/O error. -/
def openFile (inj : Option String) (s : FsState) (path : String) :
    Except GoError FsState :=
  match inj with
  | some m => .error (.ioError m)
  | none =>
    match lookupFile s.files path with
    | some _ => .ok s
    | none =>
      if s.dirExists then .ok { s with files := setFile s.files path "" }
      else .error .notExist

/-- Go: `openHintFile` opens-or-creates `<InhibitDir>/<snapName>.lock` through
the lock primitive. -/
def openHintFile (inj : Option String) (s : FsState) (snapName : String) :
    Except GoError FsState :=
  openFile inj s (hintFilePath snapName)

/-- Go: `os.MkdirAll(InhibitDir, 0755)` — idempotent directory creation, or an
injected environmental failure leaving the state unchanged. -/
def MkdirAll (inj : Option String) (s : FsState) : Except GoError FsState :=
  match inj with
  | some m => .error (.ioError m)
  | none => .ok { s with dirExists := true }

/-- Fault-injection environment for one `LockWithHint` call: each field is the
outcome of the corresponding syscall (`none` = success); `writeN` is the number
of bytes the failed `WriteString` managed to write before reporting its error. -/
structure WriteEnv where
  mkdirErr : Option String
  openErr : Option String
  lockErr : Option String
  truncErr : Option String
  writeErr : Option String
  writeN : Nat
deriving DecidableEq, Repr

/-- A `WriteEnv` with no injected faults. -/
def cleanWriteEnv : WriteEnv := ⟨none, none, none, none, none, 0⟩

/-- Go: `LockWithHint(snapName, hint)` — reject an empty hint, `MkdirAll` the
inhibit directory, open-or-create the hint file, take the exclusive lock,
truncate to zero and write the hint's bytes; the first failure is returned and
later steps do not run.  On a write failure the file holds the prefix of the
hint that was written before the error. -/
def LockWithHint (env : WriteEnv) (s : FsState) (snapName : String) (hint : Hint) :
    FsState × Option GoError :=
  if hint.length = 0 then
    (s, some (.invalidArgument "hint cannot be empty"))
  else
    match MkdirAll env.mkdirErr s with
    | .error e => (s, some e)
    | .ok s1 =>
      match openHintFile env.openErr s1 snapName with
      | .error e => (s1, some e)
      | .ok s2 =>
        match env.lockErr with
        | some m => (s2, some (.ioError m))
        | none =>
          match env.truncErr with
          | some m => (s2, some (.ioError m))
          | none =>
            match env.writeErr with
            | some m =>
              ({ s2 with files := setFile s2.files (hintFilePath snapName) (hint.take env.writeN) },
               some (.ioError m))
            | none =>
              ({ s2 with files := setFile s2.files (hintFilePath snapName) hint }, none)

/-- Fault-injection environment for one `Unlock` call. -/
structure ClearEnv where
  openErr : Option String
  lockErr : Option String
  truncErr : Option String
deriving DecidableEq, Repr

/-- A `ClearEnv` with no injected faults. -/
def cleanClearEnv : ClearEnv := ⟨none, none, none⟩

/-- Go: `Unlock(snapName)` — open the hint file; a not-exist failure is
swallowed (`os.IsNotExist(err)` returns success); otherwise take the exclusive
lock and truncate the content to zero length. -/
def Unlock (env : ClearEnv) (s : FsState) (snapName : String) :
    FsState × Option GoError :=
  match openHintFile env.openErr s snapName with
  | .error .notExist => (s, none)
  | .error e => (s, some e)
  | .ok s1 =>
    match env.lockErr with
    | some m => (s1, some (.ioError m))
    | none =>
      match env.truncErr with
      | some m => (s1, some (.ioError m))
      | none => ({ s1 with files := setFile s1.files (hintFilePath snapName) "" }, none)

/-- Fault-injection environment for one `IsLocked` call.  `shortRead` models a
read syscall returning fewer bytes than requested (`some k`: at most `k` bytes
are returned), the race the spec attributes to external, non-cooperating file
modification between stat and read; `readErr` is the error reported by that
read syscall, if any. -/
structure ReadEnv where
  openErr : Option String
  rlockErr : Option String
  statErr : Option String
  readErr : Option String
  shortRead : Option Nat
deriving DecidableEq, Repr

/-- A `ReadEnv` with no injected faults and a full read. -/
def cleanReadEnv : ReadEnv := ⟨none, none, none, none, none⟩

/-- A `ReadEnv` is clean when the open, shared-lock and stat syscalls succeed
and the read returns the full requested count. -/
def ReadEnv.clean (env : ReadEnv) : Prop :=
  env.openErr = none ∧ env.rlockErr = none ∧ env.statErr = none ∧ env.shortRead = none

/-- The value part of `IsLocked` once the hint file is open with the given
contents: `ReadLock`, `Stat`, the zero-size fast path, then
`n, err := f.Read(buf)` with `buf` of the stat size — when `n == len(buf)` the
buffer is returned as the hint with a nil error, otherwise the read's own error
(possibly nil) is returned with the empty hint. -/
def readHint (env : ReadEnv) (content : String) : Hint × Option GoError :=
  match env.rlockErr with
  | some m => ("", some (.ioError m))
  | none =>
    match env.statErr with
    | some m => ("", some (.ioError m))
    | none =>
      if content.length = 0 then ("", none)
      else
        let n := match env.shortRead with
          | none => content.length
          | some k => min k content.length
        if n = content.length then (content, none)
        else
          ("", match env.readErr with
               | some m => some (.ioError m)
               | none => none)

/-- Go: `IsLocked(snapName)` — open the hint file; a not-exist failure means
"not inhibited"; otherwise read the hint under a shared lock via `readHint`. -/
def IsLocked (env : ReadEnv) (s : FsState) (snapName : String) :
    FsState × Hint × Option GoError :=
  match openHintFile env.openErr s snapName with
  | .error .notExist => (s, "", none)
  | .error e => (s, "", some e)
  | .ok s1 => (s1, readHint env ((lookupFile s1.files (hintFilePath snapName)).getD ""))

/-! ## Basic lemmas about the modelled filesystem -/

theorem lookupFile_setFile (fs : List (String × String)) (p c q : String) :
    lookupFile (setFile fs p c) q = if q = p then some c else lookupFile fs q := by
  induction fs with
  | nil =>
    by_cases hq : q = p
    · subst hq; simp [setFile, lookupFile]
    · have hq' : ¬p = q := fun h => hq h.symm
      simp [setFile, lookupFile, hq, hq']
  | cons hd tl ih =>
    obtain ⟨k, d⟩ := hd
    by_cases hk : k = p
    · subst hk
      by_cases hq : q = k
      · subst hq; simp [setFile, lookupFile]
      · have hq' : ¬k = q := fun h => hq h.symm
        simp [setFile, lookupFile, hq, hq']
    · by_cases hkq : k = q
      · subst hkq
        have hq : ¬k = p := hk
        simp [setFile, lookupFile, hq]
      · simp [setFile, lookupFile, hk, hkq, ih]

theorem lookupFile_setFile_self (fs : List (String × String)) (p c : String) :
    lookupFile (setFile fs p c) p = some c := by
  rw [lookupFile_setFile, if_pos rfl]

/-- A successful `LockWithHint` leaves the hint file holding exactly the hint,
and that hint was necessarily non-empty. -/
theorem LockWithHint_success (env : WriteEnv) (s s' : FsState) (r : String) (h : Hint)
    (hw : LockWithHint env s r h = (s', none)) :
    lookupFile s'.files (hintFilePath r) = some h ∧ h.length ≠ 0 := by
  by_cases hh : h.length = 0
  · simp [LockWithHint, hh] at hw
  · refine ⟨?_, hh⟩
    simp only [LockWithHint, if_neg hh] at hw
    cases hmk : env.mkdirErr with
    | some m => simp [MkdirAll, hmk] at hw
    | none =>
      simp only [MkdirAll, hmk] at hw
      cases hop : env.openErr with
      | some m => simp [openHintFile, openFile, hop] at hw
      | none =>
        simp only [openHintFile, openFile, hop] at hw
        have hgoal : ∀ s2 : FsState,
            (match env.lockErr with
             | some m => (s2, some (GoError.ioError m))
             | none =>
               match env.truncErr with
               | some m => (s2, some (GoError.ioError m))
               | none =>
                 match env.writeErr with
                 | some m =>
                   ({ s2 with files := setFile s2.files (hintFilePath r) (h.take env.writeN) },
                    some (GoError.ioError m))
                 | none =>
                   ({ s2 with files := setFile s2.files (hintFilePath r) h }, none))
              = (s', none) →
            lookupFile s'.files (hintFilePath r) = some h := by
          intro s2 hm
          cases hlk : env.lockErr with
          | some m => simp [hlk] at hm
          | none =>
            simp only [hlk] at hm
            cases htr : env.truncErr with
            | some m => simp [htr] at hm
            | none =>
              simp only [htr] at hm
              cases hwe : env.writeErr with
              | some m => simp [hwe] at hm
              | none =>
                simp only [hwe, Prod.mk.injEq] at hm
                rw [← hm.1]
                exact lookupFile_setFile_self _ _ _
        cases hf : lookupFile ({ s with dirExists := true } : FsState).files (hintFilePath r) with
        | some c =>
          simp only [hf] at hw
          exact hgoal _ hw
        | none =>
          simp only [hf, if_pos rfl] at hw
          exact hgoal _ hw

/-- A successful `Unlock` of an existing hint file truncates it: the file still
exists afterwards and holds the empty string. -/
theorem Unlock_success_trunc (env : ClearEnv) (s s' : FsState) (r : String) (c : String)
    (hf : lookupFile s.files (hintFilePath r) = some c)
    (hu : Unlock env s r = (s', none)) :
    lookupFile s'.files (hintFilePath r) = some "" := by
  cases hop : env.openErr with
  | some m => simp [Unlock, openHintFile, openFile, hop] at hu
  | none =>
    simp only [Unlock, openHintFile, openFile, hop, hf] at hu
    cases hlk : env.lockErr with
    | some m => simp [hlk] at hu
    | none =>
      simp only [hlk] at hu
      cases htr : env.truncErr with
      | some m => simp [htr] at hu
      | none =>
        simp only [htr, Prod.mk.injEq] at hu
        rw [← hu.1]
        exact lookupFile_setFile_self _ _ _

/-- With a clean read environment, `IsLocked` on an existing hint file returns
its content when non-empty, and the empty hint when the file is empty; in both
cases the state is unchanged and no error is reported. -/
theorem IsLocked_clean_some (env : ReadEnv) (s : FsState) (r : String) (c : String)
    (hc : env.clean) (hf : lookupFile s.files (hintFilePath r) = some c) :
    IsLocked env s r = (s, (if c.length = 0 then "" else c), none) := by
  obtain ⟨ho, hl, hst, hsr⟩ := hc
  simp only [IsLocked, openHintFile, openFile, ho, hf, Option.getD_some,
    readHint, hl, hst, hsr]
  by_cases hz : c.length = 0
  · simp [hz]
  · simp [hz]

/-- With a clean read environment, `IsLocked` on a missing hint file returns
the empty hint and no error, whether or not the inhibit directory exists. -/
theorem IsLocked_clean_none (env : ReadEnv) (s : FsState) (r : String)
    (hc : env.clean) (hf : lookupFile s.files (hintFilePath r) = none) :
    (IsLocked env s r).2 = ("", none) := by
  obtain ⟨ho, hl, hst, hsr⟩ := hc
  cases hd : s.dirExists with
  | false => simp [IsLocked, openHintFile, openFile, ho, hf, hd]
  | true =>
    simp [IsLocked, openHintFile, openFile, ho, hf, hd, readHint, hl, hst,
      lookupFile_setFile_self]

/-- Whenever `readHint` reports an error, the hint it returns is empty. -/
theorem readHint_error (env : ReadEnv) (c : String) (e : GoError)
    (he : (readHint env c).2 = some e) : (readHint env c).1 = "" := by
  unfold readHint
  unfold readHint at he
  cases hl : env.rlockErr with
  | some m => simp [hl]
  | none =>
    simp only [hl] at he ⊢
    cases hst : env.statErr with
    | some m => simp [hst]
    | none =>
      simp only [hst] at he ⊢
      by_cases hz : c.length = 0
      · simp [hz] at he
      · simp only [if_neg hz] at he ⊢
        by_cases hn : (match env.shortRead with
            | none => c.length
            | some k => min k c.length) = c.length
        · simp [hn] at he
        · simp [hn]

/-! ## Claims about the sequential operations -/

/-- Claim C1: for every resource name `r` and every non-empty hint `h`, if
`LockWithHint(r, h)` succeeds, a subsequent `IsLocked(r)` with no intervening
operation on `r` and no environmental read fault returns exactly `(h, nil)`:
the hint read back is byte-for-byte the hint written. -/
theorem C1_round_trip (wenv : WriteEnv) (renv : ReadEnv) (s s' : FsState)
    (r : String) (h : Hint)
    (hw : LockWithHint wenv s r h = (s', none)) (hr : renv.clean) :
    IsLocked renv s' r = (s', h, none) := by
  obtain ⟨hf, hh⟩ := LockWithHint_success wenv s s' r h hw
  rw [IsLocked_clean_some renv s' r h hr hf, if_neg hh]

theorem C1_round_trip_witness :
    IsLocked cleanReadEnv ⟨true, [(hintFilePath "pkg-a", "refresh")]⟩ "pkg-a" =
      (⟨true, [(hintFilePath "pkg-a", "refresh")]⟩, "refresh", none) :=
  C1_round_trip cleanWriteEnv cleanReadEnv ⟨false, []⟩ _ "pkg-a" "refresh"
    (by decide) ⟨rfl, rfl, rfl, rfl⟩

/-- Claim C2 counterexample: with the stored hint `"refresh"` (stat size 7) and
a read syscall that returns 0 bytes with no error, `IsLocked` returns a nil
error — no incomplete-read `IOError` is fabricated — refuting "it never returns
a nil error together with fewer bytes read than the stat size". -/
theorem C2_counterexample :
    IsLocked ⟨none, none, none, none, some 0⟩
        ⟨true, [(hintFilePath "pkg-a", "refresh")]⟩ "pkg-a" =
      (⟨true, [(hintFilePath "pkg-a", "refresh")]⟩, "", none) := by decide

/-- Claim C2 as amended: whenever the number of bytes actually read differs
from the size reported by stat, `IsLocked` returns the empty hint together with
the error reported by the read syscall itself — which is nil when the read
reported no error; it never returns a possibly-truncated non-empty hint. -/
theorem C2_short_read (env : ReadEnv) (s : FsState) (r : String) (c : String) (k : Nat)
    (ho : env.openErr = none) (hl : env.rlockErr = none) (hst : env.statErr = none)
    (hsr : env.shortRead = some k)
    (hf : lookupFile s.files (hintFilePath r) = some c)
    (hk : k < c.length) :
    IsLocked env s r = (s, "",
      match env.readErr with
      | some m => some (GoError.ioError m)
      | none => none) := by
  simp only [IsLocked, openHintFile, openFile, ho, hf, Option.getD_some,
    readHint, hl, hst, hsr]
  have hz : ¬c.length = 0 := by omega
  have hn : ¬min k c.length = c.length := by omega
  simp [hz, hn]

theorem C2_short_read_witness :
    IsLocked ⟨none, none, none, some "interrupted", some 2⟩
        ⟨true, [(hintFilePath "pkg-a", "refresh")]⟩ "pkg-a" =
      (⟨true, [(hintFilePath "pkg-a", "refresh")]⟩, "",
        some (GoError.ioError "interrupted")) :=
  C2_short_read ⟨none, none, none, some "interrupted", some 2⟩
    ⟨true, [(hintFilePath "pkg-a", "refresh")]⟩ "pkg-a" "refresh" 2
    rfl rfl rfl rfl (by decide) (by decide)

/-- Claim C3 counterexample: when the inhibit directory exists and the hint
file is absent, `IsLocked` mutates stored state — the open-or-create lock
primitive creates an empty hint file — refuting "IsLocked performs no mutation
of stored state" and "the hint file is created only by a LockWithHint call". -/
theorem C3_counterexample :
    (IsLocked cleanReadEnv ⟨true, []⟩ "pkg-a").1.files =
      [(hintFilePath "pkg-a", "")] ∧
    (IsLocked cleanReadEnv ⟨true, []⟩ "pkg-a").1 ≠ (⟨true, []⟩ : FsState) := by
  decide

/-- Claim C3 as amended: `IsLocked(r)` never creates or removes the inhibit
directory and never alters the content of any existing hint file; its only
possible mutation is that the open-or-create lock primitive creates an empty
hint file for `r` when the inhibit directory exists and the file is absent —
an empty file being observationally equivalent to a missing one. -/
theorem C3_read_frame (env : ReadEnv) (s : FsState) (r : String) :
    (IsLocked env s r).1.dirExists = s.dirExists ∧
    ((IsLocked env s r).1 = s ∨
      (s.dirExists = true ∧ lookupFile s.files (hintFilePath r) = none ∧
        (IsLocked env s r).1 = { s with files := setFile s.files (hintFilePath r) "" })) := by
  cases ho : env.openErr with
  | some m => simp [IsLocked, openHintFile, openFile, ho]
  | none =>
    cases hf : lookupFile s.files (hintFilePath r) with
    | some c => simp [IsLocked, openHintFile, openFile, ho, hf]
    | none =>
      cases hd : s.dirExists with
      | false => simp [IsLocked, openHintFile, openFile, ho, hf, hd]
      | true => simp [IsLocked, openHintFile, openFile, ho, hf, hd]

/-- Claim C4: for every resource name `r`, `LockWithHint(r, "")` with the empty
hint fails immediately with the `InvalidArgument`-class error and has no
observable effect on stored state — the returned state is the input state — and
a subsequent `IsLocked(r)` on a never-set resource still returns `("", nil)`. -/
theorem C4_empty_hint (wenv : WriteEnv) (renv : ReadEnv) (s : FsState) (r : String)
    (hf : lookupFile s.files (hintFilePath r) = none) (hr : renv.clean) :
    LockWithHint wenv s r "" =
      (s, some (GoError.invalidArgument "hint cannot be empty")) ∧
    (IsLocked renv s r).2 = ("", none) :=
  ⟨rfl, IsLocked_clean_none renv s r hr hf⟩

theorem C4_empty_hint_witness :
    LockWithHint cleanWriteEnv ⟨false, []⟩ "pkg-b" "" =
      (⟨false, []⟩, some (GoError.invalidArgument "hint cannot be empty")) ∧
    (IsLocked cleanReadEnv ⟨false, []⟩ "pkg-b").2 = ("", none) :=
  C4_empty_hint cleanWriteEnv cleanReadEnv ⟨false, []⟩ "pkg-b" rfl ⟨rfl, rfl, rfl, rfl⟩

/-- Claim C5: for every resource `r` and non-empty hint `h`, after
`LockWithHint(r, h)` succeeds and `Unlock(r)` succeeds, `IsLocked(r)` under a
clean read environment returns `(HintNotInhibited, nil)` — the empty hint with
no error. -/
theorem C5_set_then_clear (wenv : WriteEnv) (cenv : ClearEnv) (renv : ReadEnv)
    (s s1 s2 : FsState) (r : String) (h : Hint)
    (hw : LockWithHint wenv s r h = (s1, none))
    (hu : Unlock cenv s1 r = (s2, none))
    (hr : renv.clean) :
    (IsLocked renv s2 r).2 = (HintNotInhibited, none) := by
  obtain ⟨hf1, hh⟩ := LockWithHint_success wenv s s1 r h hw
  have hf2 := Unlock_success_trunc cenv s1 s2 r h hf1 hu
  rw [IsLocked_clean_some renv s2 r "" hr hf2]
  simp [HintNotInhibited]

theorem C5_set_then_clear_witness :
    (IsLocked cleanReadEnv ⟨true, [(hintFilePath "pkg-a", "")]⟩ "pkg-a").2 =
      (HintNotInhibited, none) :=
  C5_set_then_clear cleanWriteEnv cleanClearEnv cleanReadEnv
    ⟨false, []⟩ ⟨true, [(hintFilePath "pkg-a", "refresh")]⟩
    ⟨true, [(hintFilePath "pkg-a", "")]⟩ "pkg-a" "refresh"
    (by decide) (by decide) ⟨rfl, rfl, rfl, rfl⟩

/-- Claim C6 counterexample: with the inhibit directory existing and the lock
file for the resource absent, `Unlock` succeeds with no error but is not a
no-op — the open-or-create lock primitive creates the hint file, which the
truncate then leaves empty — refuting the "no-op" part of the claim. -/
theorem C6_counterexample :
    Unlock cleanClearEnv ⟨true, []⟩ "pkg-never-created" =
      (⟨true, [(hintFilePath "pkg-never-created", "")]⟩, none) ∧
    (⟨true, [(hintFilePath "pkg-never-created", "")]⟩ : FsState) ≠ ⟨true, []⟩ := by
  decide

/-- Claim C6 as amended: for every resource `r` whose lock file does not exist,
`Unlock(r)` with no injected I/O failure succeeds with no error; when the
inhibit directory is also missing, the not-found condition from the open is
swallowed and nothing changes; when the directory exists, the open-or-create
lock primitive creates the hint file, which is left empty — in either case the
directory flag is unchanged and the resource remains observationally
uninhibited (file absent or empty); genuine I/O failures other than not-found
are still propagated. -/
theorem C6_missing_file (env : ClearEnv) (s : FsState) (r : String)
    (hf : lookupFile s.files (hintFilePath r) = none)
    (ho : env.openErr = none) (hl : env.lockErr = none) (ht : env.truncErr = none) :
    (Unlock env s r).2 = none ∧
    (Unlock env s r).1.dirExists = s.dirExists ∧
    (lookupFile (Unlock env s r).1.files (hintFilePath r) = none ∨
      lookupFile (Unlock env s r).1.files (hintFilePath r) = some "") := by
  cases hd : s.dirExists with
  | false =>
    simp [Unlock, openHintFile, openFile, ho, hf, hd]
  | true =>
    simp [Unlock, openHintFile, openFile, ho, hf, hd, hl, ht,
      lookupFile_setFile_self]

theorem C6_missing_file_witness :
    (Unlock cleanClearEnv ⟨true, []⟩ "pkg-never-created").2 = none ∧
    (Unlock cleanClearEnv ⟨true, []⟩ "pkg-never-created").1.dirExists = true ∧
    (lookupFile (Unlock cleanClearEnv ⟨true, []⟩ "pkg-never-created").1.files
        (hintFilePath "pkg-never-created") = none ∨
      lookupFile (Unlock cleanClearEnv ⟨true, []⟩ "pkg-never-created").1.files
        (hintFilePath "pkg-never-created") = some "") :=
  C6_missing_file cleanClearEnv ⟨true, []⟩ "pkg-never-created" rfl rfl rfl rfl

/-- Claim C7: for every resource `r`, `IsLocked(r)` under a clean read
environment returns `("", nil)` both when the lock file does not exist and when
it exists with zero size: a missing hint file and an empty hint file are
observationally equivalent and neither is reported as an error. -/
theorem C7_missing_eq_empty (renv : ReadEnv) (s : FsState) (r : String)
    (hr : renv.clean)
    (hf : lookupFile s.files (hintFilePath r) = none ∨
          lookupFile s.files (hintFilePath r) = some "") :
    (IsLocked renv s r).2 = ("", none) := by
  cases hf with
  | inl hf => exact IsLocked_clean_none renv s r hr hf
  | inr hf => rw [IsLocked_clean_some renv s r "" hr hf]; rfl

theorem C7_missing_eq_empty_witness :
    (IsLocked cleanReadEnv ⟨false, []⟩ "pkg-a").2 = ("", none) ∧
    (IsLocked cleanReadEnv ⟨true, [(hintFilePath "pkg-b", "")]⟩ "pkg-b").2 =
      ("", none) :=
  ⟨C7_missing_eq_empty cleanReadEnv ⟨false, []⟩ "pkg-a" ⟨rfl, rfl, rfl, rfl⟩
      (Or.inl rfl),
    C7_missing_eq_empty cleanReadEnv ⟨true, [(hintFilePath "pkg-b", "")]⟩ "pkg-b"
      ⟨rfl, rfl, rfl, rfl⟩ (Or.inr (by decide))⟩

/-- Claim C8: `Unlock(r)` on an existing lock file never deletes the file: it
truncates the content to zero length, so after a successful `Unlock` the hint
file still exists with size zero. -/
theorem C8_trunc_not_delete (env : ClearEnv) (s s' : FsState) (r : String) (c : String)
    (hf : lookupFile s.files (hintFilePath r) = some c)
    (hu : Unlock env s r = (s', none)) :
    lookupFile s'.files (hintFilePath r) = some "" :=
  Unlock_success_trunc env s s' r c hf hu

theorem C8_trunc_not_delete_witness :
    lookupFile
        (Unlock cleanClearEnv ⟨true, [(hintFilePath "pkg-a", "refresh")]⟩ "pkg-a").1.files
        (hintFilePath "pkg-a") = some "" :=
  C8_trunc_not_delete cleanClearEnv ⟨true, [(hintFilePath "pkg-a", "refresh")]⟩
    _ "pkg-a" "refresh" (by decide) (by decide)

/-- Claim C10: whenever `IsLocked(r)` returns a non-nil error, the hint value
returned alongside the error is the empty string `HintNotInhibited`; no error
return ever carries a non-empty hint. -/
theorem C10_error_empty_hint (env : ReadEnv) (s : FsState) (r : String) (e : GoError)
    (he : (IsLocked env s r).2.2 = some e) :
    (IsLocked env s r).2.1 = "" := by
  cases ho : env.openErr with
  | some m => simp [IsLocked, openHintFile, openFile, ho]
  | none =>
    cases hf : lookupFile s.files (hintFilePath r) with
    | some c =>
      simp only [IsLocked, openHintFile, openFile, ho, hf, Option.getD_some] at he ⊢
      exact readHint_error env c e he
    | none =>
      cases hd : s.dirExists with
      | false => simp [IsLocked, openHintFile, openFile, ho, hf, hd]
      | true =>
        simp only [IsLocked, openHintFile, openFile, ho, hf, hd, if_true,
          lookupFile_setFile_self, Option.getD_some] at he ⊢
        exact readHint_error env "" e he

theorem C10_error_empty_hint_witness :
    (IsLocked ⟨none, some "resource temporarily unavailable", none, none, none⟩
        ⟨true, [(hintFilePath "pkg-a", "refresh")]⟩ "pkg-a").2.1 = "" :=
  C10_error_empty_hint ⟨none, some "resource temporarily unavailable", none, none, none⟩
    ⟨true, [(hintFilePath "pkg-a", "refresh")]⟩ "pkg-a"
    (GoError.ioError "resource temporarily unavailable") (by decide)

/-! ## Concurrency model for two writers

The exclusive-lock discipline of `LockWithHint` after the hint file is open:
`flock.Lock()`, `f.Truncate(0)`, `f.WriteString(hint)` byte by byte, then the
deferred `flock.Close()` releasing the lock.  The lock primitive is not under
src/; spec sections 5 and 6 describe `Lock()` as a blocking exclusive lock
excluding all other holders, so a writer step that needs the lock is enabled
only while that writer holds it, and acquisition is enabled only while no one
does.  Two writers with hints `h false` and `h true` interleave arbitrarily;
bytes are written one at a time to expose any possible interleaving. -/

/-- Local progress of one writer through the locked region of `LockWithHint`:
not yet holding the lock, holding it before the truncate, having truncated and
written the first `j` bytes of its hint, and finished (lock released). -/
inductive WStatus where
  | idle
  | locked
  | writing (j : Nat)
  | done
deriving DecidableEq, Repr

/-- Shared state of the two concurrent writers: the hint file's content, the
current exclusive-lock holder if any, and each writer's local status. -/
structure CState where
  content : List Char
  excl : Option Bool
  st0 : WStatus
  st1 : WStatus
deriving DecidableEq, Repr

/-- Status of writer `i`. -/
def getSt (s : CState) : Bool → WStatus
  | false => s.st0
  | true => s.st1

/-- Replace the status of writer `i`. -/
def setSt (s : CState) (i : Bool) (w : WStatus) : CState :=
  match i with
  | false => { s with st0 := w }
  | true => { s with st1 := w }

/-- Interleaved small-step semantics of the two writers: acquire the exclusive
lock (only when free), truncate to zero length (only while holding the lock),
write the next byte of one's own hint (only while holding the lock), and
release the lock once the whole hint is written. -/
inductive CStep (h : Bool → List Char) : CState → CState → Prop where
  | acquire (s : CState) (i : Bool) :
      getSt s i = WStatus.idle → s.excl = none →
      CStep h s { setSt s i WStatus.locked with excl := some i }
  | truncateStep (s : CState) (i : Bool) :
      getSt s i = WStatus.locked → s.excl = some i →
      CStep h s { setSt s i (WStatus.writing 0) with content := [] }
  | writeByte (s : CState) (i : Bool) (j : Nat) (hj : j < (h i).length) :
      getSt s i = WStatus.writing j → s.excl = some i →
      CStep h s { setSt s i (WStatus.writing (j + 1)) with
                    content := s.content ++ [(h i).get ⟨j, hj⟩] }
  | release (s : CState) (i : Bool) :
      getSt s i = WStatus.writing (h i).length → s.excl = some i →
      CStep h s { setSt s i WStatus.done with excl := none }

/-- Both writers pending, lock free, initial file content `c0`. -/
def initC (c0 : List Char) : CState :=
  ⟨c0, none, WStatus.idle, WStatus.idle⟩

/-- Invariant of the two-writer system: a writer holding the lock is the
recorded holder; a mid-write writer holds the lock and the content is exactly
the prefix of its own hint written so far; whenever the lock is free — the only
states in which a shared-lock reader can observe the file — the content is the
initial content or one of the two complete hints, never a proper mixture; and
once both writers are done the content is one of the two hints. -/
def CInv (h : Bool → List Char) (c0 : List Char) (s : CState) : Prop :=
  (s.st0 = WStatus.locked → s.excl = some false) ∧
  (s.st1 = WStatus.locked → s.excl = some true) ∧
  (∀ j, s.st0 = WStatus.writing j →
    s.excl = some false ∧ j ≤ (h false).length ∧ s.content = (h false).take j) ∧
  (∀ j, s.st1 = WStatus.writing j →
    s.excl = some true ∧ j ≤ (h true).length ∧ s.content = (h true).take j) ∧
  (s.excl = none → s.content = c0 ∨ s.content = h false ∨ s.content = h true) ∧
  (s.st0 = WStatus.done → s.st1 = WStatus.done →
    s.content = h false ∨ s.content = h true)

theorem take_push {α : Type} (l : List α) (j : Nat) (hj : j < l.length) :
    l.take j ++ [l.get ⟨j, hj⟩] = l.take (j + 1) := by
  rw [List.take_succ]
  simp [List.getElem?_eq_getElem hj, List.get_eq_getElem]

theorem CInv_init (h : Bool → List Char) (c0 : List Char) : CInv h c0 (initC c0) := by
  refine ⟨?_, ?_, ?_, ?_, ?_, ?_⟩
  · intro hx; simp [initC] at hx
  · intro hx; simp [initC] at hx
  · intro j hx; simp [initC] at hx
  · intro j hx; simp [initC] at hx
  · intro _; exact Or.inl rfl
  · intro hx _; simp [initC] at hx

theorem CInv_step (h : Bool → List Char) (c0 : List Char) {s t : CState}
    (hs : CInv h c0 s) (hst : CStep h s t) : CInv h c0 t := by
  obtain ⟨inv1, inv2, inv3, inv4, inv5, inv6⟩ := hs
  cases hst with
  | acquire i hi he =>
    cases i with
    | false =>
      simp only [getSt] at hi
      unfold CInv
      dsimp only [setSt]
      refine ⟨fun _ => rfl, ?_, ?_, ?_, ?_, ?_⟩
      · intro hl
        have hx := inv2 hl
        rw [he] at hx
        simp at hx
      · intro j hw
        simp at hw
      · intro j hw
        have hx := (inv4 j hw).1
        rw [he] at hx
        simp at hx
      · intro hn
        simp at hn
      · intro h0
        simp at h0
    | true =>
      simp only [getSt] at hi
      unfold CInv
      dsimp only [setSt]
      refine ⟨?_, fun _ => rfl, ?_, ?_, ?_, ?_⟩
      · intro hl
        have hx := inv1 hl
        rw [he] at hx
        simp at hx
      · intro j hw
        have hx := (inv3 j hw).1
        rw [he] at hx
        simp at hx
      · intro j hw
        simp at hw
      · intro hn
        simp at hn
      · intro _ h1
        simp at h1
  | truncateStep i hi he =>
    cases i with
    | false =>
      simp only [getSt] at hi
      unfold CInv
      dsimp only [setSt]
      refine ⟨?_, ?_, ?_, ?_, ?_, ?_⟩
      · intro hl
        simp at hl
      · intro hl
        have hx := inv2 hl
        rw [he] at hx
        simp at hx
      · intro j hw
        have hj : j = 0 := by
          injection hw with hj0
          omega
        subst hj
        exact ⟨he, Nat.zero_le _, rfl⟩
      · intro j hw
        have hx := (inv4 j hw).1
        rw [he] at hx
        simp at hx
      · intro hn
        rw [he] at hn
        simp at hn
      · intro h0
        simp at h0
    | true =>
      simp only [getSt] at hi
      unfold CInv
      dsimp only [setSt]
      refine ⟨?_, ?_, ?_, ?_, ?_, ?_⟩
      · intro hl
        have hx := inv1 hl
        rw [he] at hx
        simp at hx
      · intro hl
        simp at hl
      · intro j hw
        have hx := (inv3 j hw).1
        rw [he] at hx
        simp at hx
      · intro j hw
        have hj : j = 0 := by
          injection hw with hj0
          omega
        subst hj
        exact ⟨he, Nat.zero_le _, rfl⟩
      · intro hn
        rw [he] at hn
        simp at hn
      · intro _ h1
        simp at h1
  | writeByte i j hj hi he =>
    cases i with
    | false =>
      simp only [getSt] at hi
      obtain ⟨_, _, hc⟩ := inv3 j hi
      unfold CInv
      dsimp only [setSt]
      refine ⟨?_, ?_, ?_, ?_, ?_, ?_⟩
      · intro hl
        simp at hl
      · intro hl
        have hx := inv2 hl
        rw [he] at hx
        simp at hx
      · intro j' hw
        have hj' : j' = j + 1 := by
          injection hw with hj0
          omega
        subst hj'
        refine ⟨he, hj, ?_⟩
        rw [hc]
        exact take_push (h false) j hj
      · intro j' hw
        have hx := (inv4 j' hw).1
        rw [he] at hx
        simp at hx
      · intro hn
        rw [he] at hn
        simp at hn
      · intro h0
        simp at h0
    | true =>
      simp only [getSt] at hi
      obtain ⟨_, _, hc⟩ := inv4 j hi
      unfold CInv
      dsimp only [setSt]
      refine ⟨?_, ?_, ?_, ?_, ?_, ?_⟩
      · intro hl
        have hx := inv1 hl
        rw [he] at hx
        simp at hx
      · intro hl
        simp at hl
      · intro j' hw
        have hx := (inv3 j' hw).1
        rw [he] at hx
        simp at hx
      · intro j' hw
        have hj' : j' = j + 1 := by
          injection hw with hj0
          omega
        subst hj'
        refine ⟨he, hj, ?_⟩
        rw [hc]
        exact take_push (h true) j hj
      · intro hn
        rw [he] at hn
        simp at hn
      · intro _ h1
        simp at h1
  | release i hi he =>
    cases i with
    | false =>
      simp only [getSt] at hi
      have hfull : s.content = h false := by
        rw [(inv3 _ hi).2.2, List.take_length]
      unfold CInv
      dsimp only [setSt]
      refine ⟨?_, ?_, ?_, ?_, ?_, ?_⟩
      · intro hl
        simp at hl
      · intro hl
        have hx := inv2 hl
        rw [he] at hx
        simp at hx
      · intro j hw
        simp at hw
      · intro j hw
        have hx := (inv4 j hw).1
        rw [he] at hx
        simp at hx
      · intro _
        exact Or.inr (Or.inl hfull)
      · intro _ _
        exact Or.inl hfull
    | true =>
      simp only [getSt] at hi
      have hfull : s.content = h true := by
        rw [(inv4 _ hi).2.2, List.take_length]
      unfold CInv
      dsimp only [setSt]
      refine ⟨?_, ?_, ?_, ?_, ?_, ?_⟩
      · intro hl
        have hx := inv1 hl
        rw [he] at hx
        simp at hx
      · intro hl
        simp at hl
      · intro j hw
        have hx := (inv3 j hw).1
        rw [he] at hx
        simp at hx
      · intro j hw
        simp at hw
      · intro _
        exact Or.inr (Or.inr hfull)
      · intro _ _
        exact Or.inr hfull

/-- Every state reachable from the initial state satisfies the invariant. -/
theorem CInv_reach (h : Bool → List Char) (c0 : List Char) (s : CState)
    (hr : Relation.ReflTransGen (CStep h) (initC c0) s) : CInv h c0 s := by
  induction hr with
  | refl => exact CInv_init h c0
  | tail _ hbc ih => exact CInv_step h c0 ih hbc

/-- Claim C9: two concurrent `LockWithHint` writers on the same resource with
hints `h false` and `h true` serialize fully under the exclusive lock: in every
reachable state in which both writers have completed, the file content is
exactly one of the two written hints, never an interleaving or mixture of their
bytes; moreover in every reachable state in which the exclusive lock is free —
the only states in which a shared-lock reader can observe the file — the
content is the initial content or one of the two complete hints, so no reader
ever observes a torn or partial write. -/
theorem C9_mutual_exclusion (h : Bool → List Char) (c0 : List Char) (s : CState)
    (hr : Relation.ReflTransGen (CStep h) (initC c0) s) :
    (getSt s false = WStatus.done → getSt s true = WStatus.done →
      s.content = h false ∨ s.content = h true) ∧
    (s.excl = none →
      s.content = c0 ∨ s.content = h false ∨ s.content = h true) := by
  have hinv := CInv_reach h c0 s hr
  simp only [getSt]
  exact ⟨hinv.2.2.2.2.2, hinv.2.2.2.2.1⟩

/-- Concrete pair of distinct single-byte hints for the witness run. -/
def twoHints : Bool → List Char
  | false => ['x']
  | true => ['y']

theorem C9_mutual_exclusion_witness :
    ((⟨['y'], none, WStatus.done, WStatus.done⟩ : CState).content = twoHints false ∨
      (⟨['y'], none, WStatus.done, WStatus.done⟩ : CState).content = twoHints true) ∧
    ((⟨['y'], none, WStatus.done, WStatus.done⟩ : CState).content = [] ∨
      (⟨['y'], none, WStatus.done, WStatus.done⟩ : CState).content = twoHints false ∨
      (⟨['y'], none, WStatus.done, WStatus.done⟩ : CState).content = twoHints true) := by
  have htr : Relation.ReflTransGen (CStep twoHints) (initC [])
      ⟨['y'], none, WStatus.done, WStatus.done⟩ := by
    refine Relation.ReflTransGen.head (CStep.acquire _ false rfl rfl) ?_
    refine Relation.ReflTransGen.head (CStep.truncateStep _ false rfl rfl) ?_
    refine Relation.ReflTransGen.head (CStep.writeByte _ false 0 (by decide) rfl rfl) ?_
    refine Relation.ReflTransGen.head (CStep.release _ false rfl rfl) ?_
    refine Relation.ReflTransGen.head (CStep.acquire _ true rfl rfl) ?_
    refine Relation.ReflTransGen.head (CStep.truncateStep _ true rfl rfl) ?_
    refine Relation.ReflTransGen.head (CStep.writeByte _ true 0 (by decide) rfl rfl) ?_
    refine Relation.ReflTransGen.head (CStep.release _ true rfl rfl) ?_
    exact Relation.ReflTransGen.refl
  have hboth := C9_mutual_exclusion twoHints [] ⟨['y'], none, WStatus.done, WStatus.done⟩ htr
  exact ⟨hboth.1 rfl rfl, hboth.2 rfl⟩

end Runinhibit
